import Mathlib

set_option maxHeartbeats 1000000

namespace SudepDetection

/-! Shallow embedding of src/run.py (deep-sudep-detection).
Real arithmetic of the script (numpy/torch floats) is modelled over ℚ;
tensors appear as nested lists or as shapes where only shapes matter.
External library calls (sklearn, torch layer shape rules) are modelled
from their documented behavior where the script relies on them. -/

/-- Label arrays handed to OnsetDataset: a 2-D per-timestep array
(one row of binary labels per sequence) or a 1-D per-sequence array. -/
inductive Labels where
  | perTimestep (rows : List (List ℕ))
  | perSequence (ls : List ℕ)
deriving DecidableEq

/-- Count of timesteps labeled 1 in a row:
`y_pos = len(np.where(self.y[item] == 1)[0])` (run.py line 85). -/
def y_pos (row : List ℕ) : ℕ := (row.filter (fun v => v == 1)).length

/-- Count of the remaining timesteps:
`y_neg = len(self.y[item]) - y_pos` (run.py line 86). -/
def y_neg (row : List ℕ) : ℕ := row.length - y_pos row

/-- Positive-timestep fraction `pct_pos = y_pos / (y_pos + y_neg)` (line 93). -/
def pct_pos (row : List ℕ) : ℚ := (y_pos row : ℚ) / ((y_pos row : ℚ) + (y_neg row : ℚ))

/-- Negative-timestep fraction `pct_neg = y_neg / (y_pos + y_neg)` (line 94). -/
def pct_neg (row : List ℕ) : ℚ := (y_neg row : ℚ) / ((y_pos row : ℚ) + (y_neg row : ℚ))

/-- Minority fraction `pct = min(pct_pos, pct_neg)` (line 96). -/
def pct (row : List ℕ) : ℚ := min (pct_pos row) (pct_neg row)

/-- Models sklearn compute_class_weight with class_weight="balanced" and
classes=[0, 1] on a binary label vector: it raises ValueError when a
requested class is absent from y, and otherwise returns
weight(c) = len(y) / (n_classes * count(c)) with n_classes = 2. -/
def compute_class_weight (y : List ℕ) : Except String (ℚ × ℚ) :=
  if 0 ∈ y ∧ 1 ∈ y then
    .ok ((y.length : ℚ) / (2 * ((y.filter (fun v => v == 0)).length : ℚ)),
         (y.length : ℚ) / (2 * ((y.filter (fun v => v == 1)).length : ℚ)))
  else
    .error "classes should have valid labels that are in y"

/-- Label set the Class Weight Table is computed over:
`np.max(self.y, axis=-1)` when 2-D, the labels themselves when 1-D
(run.py lines 68-75). -/
def reduceLabels : Labels → List ℕ
  | .perTimestep rows => rows.map (fun r => r.foldr max 0)
  | .perSequence ls => ls

/-- State of OnsetDataset after construction: the raw arrays plus the
two-entry class weight table self.w (w0 for class 0, w1 for class 1). -/
structure OnsetDataset where
  X : List (List (List ℚ))
  y : Labels
  w0 : ℚ
  w1 : ℚ
deriving DecidableEq

/-- OnsetDataset constructor (run.py lines 64-75): computes the balanced
class weight table over the reduced label set; construction fails when
compute_class_weight raises. -/
def OnsetDataset.init (X : List (List (List ℚ))) (y : Labels) :
    Except String OnsetDataset :=
  match compute_class_weight (reduceLabels y) with
  | .ok (w0, w1) => .ok ⟨X, y, w0, w1⟩
  | .error e => .error e

/-- OnsetDataset getitem (run.py lines 80-108). Returns the transposed
example, the collapsed label and the example weight; none models an
index error. The float32 casts are identities over ℚ. -/
def OnsetDataset.getitem (d : OnsetDataset) (item : ℕ) :
    Option (List (List ℚ) × ℕ × ℚ) :=
  match d.X.get? item with
  | none => none
  | some X =>
    match d.y with
    | .perTimestep rows =>
      match rows.get? item with
      | none => none
      | some row =>
        let y : ℕ := if y_pos row ≠ 0 then 1 else 0
        let w : ℚ := if y = 1 then d.w1 else d.w0
        -- Discount loss if either label is over 90% of the sequence
        let w : ℚ :=
          if y ≠ 0 then
            let w := if pct row < 1 / 10 then w * (10 * pct row) else w
            -- Make up for discount
            w * (11 / 10)
          else w
        some (X.transpose, y, w)
    | .perSequence ls =>
      -- When testing we only have a sequence wide label
      match ls.get? item with
      | none => none
      | some y => some (X.transpose, y, if y = 1 then d.w1 else d.w0)

/-- Holds when fetching item from labels y hits the degenerate 2-D case
of a row with at least one positive timestep and no negative timestep
(minority fraction 0). -/
def allPosRow (y : Labels) (item : ℕ) : Bool :=
  match y with
  | .perTimestep rows =>
    match rows.get? item with
    | some row => y_pos row != 0 && y_neg row == 0
    | none => false
  | .perSequence _ => false

/-- Binomial rows selected by BlurPool1d (run.py lines 118-125); any
kernel size outside 3, 5, 7 raises ValueError. -/
def binomialRow (blur_kernel_size : ℕ) : Except String (List ℚ) :=
  if blur_kernel_size = 3 then .ok [1, 2, 1]
  else if blur_kernel_size = 5 then .ok [1, 4, 6, 4, 1]
  else if blur_kernel_size = 7 then .ok [1, 6, 15, 20, 15, 6, 1]
  else .error "Supported kernel sizes are in \x7b3, 5, 7\x7d"

/-- BlurPool1d constructed kernel (run.py lines 118-136): the binomial
row normalized by its sum, repeated once per channel; the repeat and
the WxCx1 -> Cx1xW reshape/transpose leave each channel holding the
normalized row, so the kernel is given as one row per channel. -/
def BlurPool1d.mkKernel (channels blur_kernel_size : ℕ) :
    Except String (List (List ℚ)) :=
  match binomialRow blur_kernel_size with
  | .error e => .error e
  | .ok binomial =>
    let bk := binomial.map (fun v => v / binomial.sum)
    .ok (List.replicate channels bk)

/-- Shape of a [batch, channel, time] tensor. -/
structure Shape3 where
  B : ℕ
  C : ℕ
  T : ℕ
deriving DecidableEq

/-- Shape rule of torch F.conv1d / nn.Conv1d: the channel count must
match in_channels and the padded length must cover the kernel; the
output length is (T + 2·padding - kernel) / stride + 1. -/
def conv1dShape (in_channels out_channels kernel_size padding stride : ℕ)
    (s : Shape3) : Option Shape3 :=
  if s.C = in_channels ∧ kernel_size ≤ s.T + 2 * padding then
    some ⟨s.B, out_channels, (s.T + 2 * padding - kernel_size) / stride + 1⟩
  else none

/-- Shape rule of nn.BatchNorm1d: preserves the shape, requires the
configured feature count. -/
def batchNorm1dShape (num_features : ℕ) (s : Shape3) : Option Shape3 :=
  if s.C = num_features then some s else none

/-- Shape rule of nn.ReLU: identity. -/
def reluShape (s : Shape3) : Shape3 := s

/-- Shape rule of BlurPool1d.forward (run.py lines 138-145): depthwise
conv1d, kernel 3 (the ResnetBlock default), padding int(3/2) = 1,
stride 2. -/
def blurPool1dShape (channels : ℕ) (s : Shape3) : Option Shape3 :=
  conv1dShape channels channels 3 1 2 s

/-- Configuration of a ResnetBlock (run.py lines 148-174). -/
structure ResnetBlock where
  c_in : ℕ
  c_out : ℕ
  expand : ℕ
  stride : ℕ
  project : Bool
deriving DecidableEq, Inhabited

/-- Shape of the transformed branch of ResnetBlock.forward (run.py
lines 177-186): norm1, relu1, optional blurpool at stride 2, conv1
(kernel 3, padding 1), norm2, relu2, conv2 (kernel 3, padding 1). -/
def ResnetBlock.branchShape (b : ResnetBlock) (s : Shape3) : Option Shape3 :=
  (batchNorm1dShape b.c_in s).bind fun x =>
  (if b.stride = 2 then blurPool1dShape b.c_in (reluShape x)
   else some (reluShape x)).bind fun x =>
  (conv1dShape b.c_in (b.expand * b.c_in) 3 1 1 x).bind fun x =>
  (batchNorm1dShape (b.expand * b.c_in) x).bind fun x =>
  conv1dShape (b.expand * b.c_in) b.c_out 3 1 1 (reluShape x)

/-- Outcome of ResnetBlock.forward (run.py lines 176-194) at the shape
level: the branch shape plus a flag recording whether the residual add
x + x_skip was performed. drop_connect preserves the shape, so it does
not appear; tensor addition requires equal shapes, and a shape mismatch
at the add is modelled as none. -/
def ResnetBlock.forwardShape (b : ResnetBlock) (s : Shape3) :
    Option (Shape3 × Bool) :=
  (b.branchShape s).bind fun x =>
    if b.stride = 2 ∨ b.project then some (x, false)
    else if x = s then some (x, true) else none

/-- HYPER_D constant (run.py line 14). -/
def HYPER_D : ℕ := 16

/-- STOCHASTIC_DEPTH constant (run.py line 21). -/
def STOCHASTIC_DEPTH : ℚ := 0.2

/-- One entry of the CFG list (run.py lines 27-32). -/
structure StageCfg where
  repeats : ℕ
  dim : ℕ
  expand : ℕ
  stride : ℕ
  project : Bool
deriving Inhabited

/-- The CFG stage list (run.py lines 27-32). -/
def CFG : List StageCfg :=
  [⟨3, 1 * HYPER_D, 1, 2, true⟩,
   ⟨4, 2 * HYPER_D, 1, 2, true⟩,
   ⟨6, 4 * HYPER_D, 1, 2, true⟩,
   ⟨3, 8 * HYPER_D, 1, 2, true⟩]

/-- Blocks one CFG entry appends in OnsetModule (run.py lines 217-230):
a first block with the stage stride and projection, then repeat - 1
blocks at the stage width with default stride 1 and no projection. -/
def stageBlocks (c_in : ℕ) (cfg : StageCfg) : List ResnetBlock :=
  ⟨c_in, cfg.dim, cfg.expand, cfg.stride, cfg.project⟩ ::
    (List.range (cfg.repeats - 1)).map (fun _ => ⟨cfg.dim, cfg.dim, cfg.expand, 1, false⟩)

/-- The loop over CFG in OnsetModule (run.py lines 217-232), threading
c_in := cfg.dim between stages. -/
def buildBlocks : ℕ → List StageCfg → List ResnetBlock
  | _, [] => []
  | c_in, cfg :: rest => stageBlocks c_in cfg ++ buildBlocks cfg.dim rest

/-- self.blocks of OnsetModule, built with c_in = CFG[0].dim. -/
def blocks : List ResnetBlock := buildBlocks CFG.headI.dim CFG

/-- depth = 1 + len(self.blocks) (run.py line 273). -/
def depth : ℕ := 1 + blocks.length

/-- Drop probability passed to block idx (0-based) in OnsetModule.forward
(run.py line 276): STOCHASTIC_DEPTH * (idx + 1) / depth. -/
def dropProb (idx : ℕ) : ℚ := STOCHASTIC_DEPTH * ((idx : ℚ) + 1) / (depth : ℚ)

/-- Accumulators self._test_pred / self._test_true of OnsetModule, taken
already concatenated across the pass. -/
structure EvalState where
  _test_pred : List ℚ
  _test_true : List ℕ
deriving DecidableEq

/-- Comparison score of one positive/negative pair in the Mann-Whitney
form of the area under the ROC curve. -/
def pairScore (p n : ℚ) : ℚ := if n < p then 1 else if p < n then 0 else 1 / 2

/-- Models sklearn roc_auc_score on binary labels: it raises ValueError
when only one class is present in y_true, and otherwise returns the
Mann-Whitney pair statistic. -/
def roc_auc_score (y_true : List ℕ) (y_score : List ℚ) : Except String ℚ :=
  if 0 ∈ y_true ∧ 1 ∈ y_true then
    let pairs := y_true.zip y_score
    let pos := (pairs.filter (fun a => a.1 == 1)).map (fun a => a.2)
    let neg := (pairs.filter (fun a => a.1 == 0)).map (fun a => a.2)
    .ok (((pos.map (fun p => (neg.map (fun n => pairScore p n)).sum)).sum) /
      ((pos.length : ℚ) * (neg.length : ℚ)))
  else
    .error "Only one class present in y_true"

/-- OnsetModule.validation_epoch_end (run.py lines 309-336): logs the
mean loss, then inside try logs val_auc and draws the confusion-matrix
heatmap (the drawing emits no scalar log); except ValueError: pass
skips the metric emission; both accumulators are reset to empty lists
afterwards. Returns the scalar logs and the new accumulator state. -/
def validation_epoch_end (outputs : List ℚ) (st : EvalState) :
    List (String × ℚ) × EvalState :=
  let avg_loss := outputs.sum / (outputs.length : ℚ)
  let logs := [("val_loss", avg_loss)]
  let logs :=
    match roc_auc_score st._test_true st._test_pred with
    | .ok auc => logs ++ [("val_auc", auc)]
    | .error _ => logs
  (logs, ⟨[], []⟩)

/-- OnsetModule.test_epoch_end (run.py lines 349-373): same structure as
validation_epoch_end with test_loss / test_auc. -/
def test_epoch_end (outputs : List ℚ) (st : EvalState) :
    List (String × ℚ) × EvalState :=
  let avg_loss := outputs.sum / (outputs.length : ℚ)
  let logs := [("test_loss", avg_loss)]
  let logs :=
    match roc_auc_score st._test_true st._test_pred with
    | .ok auc => logs ++ [("test_auc", auc)]
    | .error _ => logs
  (logs, ⟨[], []⟩)

/-- A 100-timestep per-timestep label row with 5 positive timesteps. -/
def row100 : List ℕ := List.replicate 5 1 ++ List.replicate 95 0

/-- Dataset fixture holding row100 with unit class weights. -/
def ds100 : OnsetDataset := ⟨[[]], .perTimestep [row100], 1, 1⟩

/-- Example weight the Sampler returns for an all-positive per-timestep
row, on a split whose table computation succeeds (w0 = w1 = 1). -/
def allPosWeight : Option ℚ :=
  match OnsetDataset.init [[], []] (.perTimestep [[1, 1], [0, 0]]) with
  | .ok d => (d.getitem 0).map (fun t => t.2.2)
  | .error _ => none

/-- Dataset fixture with a half-positive row and unit class weights. -/
def dsHalf : OnsetDataset := ⟨[[]], .perTimestep [[1, 0]], 1, 1⟩

/-- Two-sequence fixture with both classes present in the reduced labels. -/
def XBal : List (List (List ℚ)) := [[], []]

/-- Labels of the balanced fixture. -/
def yBal : Labels := .perTimestep [[1, 0], [0, 0]]

/-- The dataset OnsetDataset.init builds from the balanced fixture. -/
def dsBal : OnsetDataset := ⟨XBal, yBal, 1, 1⟩

/-- The triple dsBal.getitem returns at item 0. -/
def tBal : List (List ℚ) × ℕ × ℚ := ([], 1, 11 / 10)

/-- A [2, 16, 8] input shape fixture. -/
def sIn : Shape3 := ⟨2, 16, 8⟩

/-- A stride-1 no-projection block at width 16. -/
def bSkip : ResnetBlock := ⟨16, 16, 1, 1, false⟩

/-- A stride-2 projecting block 16 -> 32. -/
def bDown : ResnetBlock := ⟨16, 32, 1, 2, true⟩

/-- Single-class accumulator fixture. -/
def stOne : EvalState := ⟨[1 / 2], [1]⟩

/-- Empty accumulator fixture. -/
def stNone : EvalState := ⟨[], []⟩

/-- Helper: the minority fraction of row100 is 5 / 100 = 1 / 20. -/
theorem pct_row100 : pct row100 = 1 / 20 := by
  have h5 : y_pos row100 = 5 := by decide
  have h95 : y_neg row100 = 95 := by decide
  rw [pct, pct_pos, pct_neg, h5, h95]
  norm_num [min_def]

/-- C1: for a per-timestep-labeled example with positive label and
minority fraction below 0.1, the Sampler returns the class-1 table
weight scaled by 10 times the minority fraction and then multiplied by
1.1 (run.py lines 92-100). -/
theorem getitem_discount_weight (d : OnsetDataset) (rows : List (List ℕ))
    (row : List ℕ) (item : ℕ) (hy : d.y = .perTimestep rows)
    (hX : item < d.X.length) (hrow : rows.get? item = some row)
    (hpos : y_pos row ≠ 0) (hm : pct row < 1 / 10) :
    (d.getitem item).map (fun t => t.2.2) =
      some (d.w1 * (10 * pct row) * (11 / 10)) := by
  obtain ⟨X0, y0, w0, w1⟩ := d
  simp only at hy hX ⊢
  subst hy
  have hXi : ∃ Xi, X0.get? item = some Xi := by
    rw [List.get?_eq_getElem?]
    exact ⟨X0[item], List.getElem?_eq_getElem hX⟩
  obtain ⟨Xi, hXi⟩ := hXi
  simp only [OnsetDataset.getitem, hXi, hrow]
  simp [hpos, hm]
  intro hcon
  rw [show (10 : ℚ)⁻¹ = 1 / 10 by norm_num] at hcon
  exact absurd hcon (not_le.mpr hm)

/-- Witness for C1 at the 100-timestep, 5-positive fixture: the weight
is 0.55 times the base class weight. -/
theorem getitem_discount_weight_witness :
    ds100.y = .perTimestep [row100] ∧ 0 < ds100.X.length ∧
      [row100].get? 0 = some row100 ∧ y_pos row100 ≠ 0 ∧
      pct row100 < 1 / 10 ∧
      (ds100.getitem 0).map (fun t => t.2.2) =
        some (ds100.w1 * (10 * pct row100) * (11 / 10)) ∧
      ds100.w1 * (10 * pct row100) * (11 / 10) = (11 / 20) * ds100.w1 :=
  ⟨rfl, by decide, rfl, by decide, by rw [pct_row100]; norm_num,
   getitem_discount_weight ds100 [row100] row100 0 rfl (by decide) rfl
     (by decide) (by rw [pct_row100]; norm_num),
   by rw [pct_row100]; show (1 : ℚ) * _ * _ = _ * 1; norm_num⟩

/-- C3 counterexample: dsHalf holds one positive-labeled row with
minority fraction 1 / 2 ≥ 0.1, yet the returned weight is w1 * 1.1,
not the plain class-1 table entry w1 = 1: the 1.1 compensation on
run.py line 100 sits outside the discount conditional and fires for
every positive per-timestep example. -/
theorem compensation_cex :
    (dsHalf.getitem 0).map (fun t => t.2.2) = some (11 / 10) ∧
      (dsHalf.getitem 0).map (fun t => t.2.2) ≠ some dsHalf.w1 := by
  have he : (dsHalf.getitem 0).map (fun t => t.2.2) = some (11 / 10) := by
    simp [dsHalf, OnsetDataset.getitem, pct, pct_pos, pct_neg, y_pos, y_neg]
    norm_num
  refine ⟨he, ?_⟩
  rw [he]
  show some ((11 : ℚ) / 10) ≠ some 1
  simp
  norm_num

/-- C3 amended: with a positive label and minority fraction at least
0.1 the 10·m discount is skipped, but the weight is still the class-1
table entry multiplied by the fixed 1.1 compensation. -/
theorem compensation_always_applied (d : OnsetDataset) (rows : List (List ℕ))
    (row : List ℕ) (item : ℕ) (hy : d.y = .perTimestep rows)
    (hX : item < d.X.length) (hrow : rows.get? item = some row)
    (hpos : y_pos row ≠ 0) (hm : ¬ pct row < 1 / 10) :
    (d.getitem item).map (fun t => t.2.2) = some (d.w1 * (11 / 10)) := by
  obtain ⟨X0, y0, w0, w1⟩ := d
  simp only at hy hX ⊢
  subst hy
  have hXi : ∃ Xi, X0.get? item = some Xi := by
    rw [List.get?_eq_getElem?]
    exact ⟨X0[item], List.getElem?_eq_getElem hX⟩
  obtain ⟨Xi, hXi⟩ := hXi
  simp only [OnsetDataset.getitem, hXi, hrow]
  simp [hpos, hm]
  intro hcon
  rw [show (10 : ℚ)⁻¹ = 1 / 10 by norm_num] at hcon
  exact absurd hcon hm

/-- Witness for the amended C3 at the half-positive fixture. -/
theorem compensation_always_applied_witness :
    dsHalf.y = .perTimestep [[1, 0]] ∧ 0 < dsHalf.X.length ∧
      [[1, 0]].get? 0 = some [1, 0] ∧ y_pos [1, 0] ≠ 0 ∧
      ¬ pct [1, 0] < 1 / 10 ∧
      (dsHalf.getitem 0).map (fun t => t.2.2) = some (dsHalf.w1 * (11 / 10)) :=
  ⟨rfl, by decide, rfl, by decide,
   by rw [pct, pct_pos, pct_neg]; norm_num [y_pos, y_neg, min_def],
   compensation_always_applied dsHalf [[1, 0]] [1, 0] 0 rfl (by decide) rfl
     (by decide) (by rw [pct, pct_pos, pct_neg]; norm_num [y_pos, y_neg, min_def])⟩

/-- C2 counterexample: on a split whose table computation succeeds with
w0 = w1 = 1, fetching the example whose per-timestep row is entirely
positive returns weight 10 · min(1, 0) · 1.1 = 0, which is not
strictly greater than 0. -/
theorem weight_positive_cex : allPosWeight = some 0 ∧ ¬ (0 : ℚ) < 0 :=
  ⟨by simp [allPosWeight, OnsetDataset.init, compute_class_weight, reduceLabels,
      OnsetDataset.getitem, pct, pct_pos, pct_neg, y_pos, y_neg],
   lt_irrefl 0⟩

/-- Helper: a successful balanced class-weight computation returns two
strictly positive weights. -/
theorem class_weights_pos {ys : List ℕ} {w0 w1 : ℚ}
    (h : compute_class_weight ys = .ok (w0, w1)) : 0 < w0 ∧ 0 < w1 := by
  unfold compute_class_weight at h
  split at h
  · rename_i hmem
    obtain ⟨h0, h1⟩ := hmem
    injection h with h2
    rw [Prod.ext_iff] at h2
    obtain ⟨e0, e1⟩ := h2
    subst e0
    subst e1
    have hlen : 0 < (ys.length : ℚ) := by
      exact_mod_cast List.length_pos.mpr (List.ne_nil_of_mem h0)
    have hm0 : 0 ∈ ys.filter (fun v => v == 0) := List.mem_filter.mpr ⟨h0, by simp⟩
    have hm1 : 1 ∈ ys.filter (fun v => v == 1) := List.mem_filter.mpr ⟨h1, by simp⟩
    have hc0 : 0 < ((ys.filter (fun v => v == 0)).length : ℚ) := by
      exact_mod_cast List.length_pos.mpr (List.ne_nil_of_mem hm0)
    have hc1 : 0 < ((ys.filter (fun v => v == 1)).length : ℚ) := by
      exact_mod_cast List.length_pos.mpr (List.ne_nil_of_mem hm1)
    exact ⟨div_pos hlen (mul_pos two_pos hc0), div_pos hlen (mul_pos two_pos hc1)⟩
  · exact Except.noConfusion h

/-- C2 amended: for every example retrieval that succeeds on a
successfully constructed dataset, the returned weight is strictly
positive unless the labels are per-timestep and the fetched row has a
positive timestep but no negative timestep (minority fraction 0), in
which case the weight is exactly 0. -/
theorem getitem_weight_sign (X : List (List (List ℚ))) (y : Labels)
    (d : OnsetDataset) (item : ℕ) (hinit : OnsetDataset.init X y = .ok d)
    (t : List (List ℚ) × ℕ × ℚ) (hget : d.getitem item = some t) :
    (allPosRow y item = true → t.2.2 = 0) ∧
      (allPosRow y item = false → 0 < t.2.2) := by
  unfold OnsetDataset.init at hinit
  rcases hcw : compute_class_weight (reduceLabels y) with e | ⟨a, b⟩
  · rw [hcw] at hinit
    exact Except.noConfusion hinit
  rw [hcw] at hinit
  injection hinit with h2
  obtain ⟨hpos0, hpos1⟩ := class_weights_pos hcw
  subst h2
  cases y with
  | perSequence ls =>
    constructor
    · intro hx
      simp [allPosRow] at hx
    · intro _
      simp only [OnsetDataset.getitem] at hget
      rcases hX : X.get? item with _ | Xi
      · rw [hX] at hget
        cases hget
      rw [hX] at hget
      rcases hls : ls.get? item with _ | yv
      · rw [hls] at hget
        cases hget
      rw [hls] at hget
      injection hget with h3
      subst h3
      by_cases hyv : yv = 1
      · simpa [hyv] using hpos1
      · simpa [hyv] using hpos0
  | perTimestep rows =>
    simp only [OnsetDataset.getitem] at hget
    rcases hX : X.get? item with _ | Xi
    · rw [hX] at hget
      cases hget
    rw [hX] at hget
    rcases hrow : rows.get? item with _ | row
    · rw [hrow] at hget
      cases hget
    rw [hrow] at hget
    have hrow2 : rows[item]? = some row := by
      rw [← List.get?_eq_getElem?]
      exact hrow
    have hap : allPosRow (.perTimestep rows) item =
        (y_pos row != 0 && y_neg row == 0) := by
      simp [allPosRow, hrow, hrow2]
    by_cases hp : y_pos row = 0
    · constructor
      · intro hx
        rw [hap] at hx
        simp [hp] at hx
      · intro _
        injection hget with h3
        subst h3
        simpa [hp] using hpos0
    · by_cases hn : y_neg row = 0
      · have hpneg : pct_neg row = 0 := by
          rw [pct_neg, hn]
          simp
        have hppos : 0 ≤ pct_pos row := by
          rw [pct_pos]
          positivity
        have hpct : pct row = 0 := by
          rw [pct, hpneg]
          exact min_eq_right hppos
        constructor
        · intro _
          injection hget with h3
          subst h3
          simp [hp, hpct]
        · intro hx
          rw [hap] at hx
          simp [hp, hn] at hx
      · have hsum : (0 : ℚ) < (y_pos row : ℚ) + (y_neg row : ℚ) := by
          have := Nat.pos_of_ne_zero hp
          have hcast : (0 : ℚ) < (y_pos row : ℚ) := by exact_mod_cast this
          exact add_pos_of_pos_of_nonneg hcast (Nat.cast_nonneg _)
        have hpct : 0 < pct row := by
          rw [pct]
          apply lt_min
          · rw [pct_pos]
            apply div_pos _ hsum
            exact_mod_cast Nat.pos_of_ne_zero hp
          · rw [pct_neg]
            apply div_pos _ hsum
            exact_mod_cast Nat.pos_of_ne_zero hn
        constructor
        · intro hx
          rw [hap] at hx
          simp [hn] at hx
        · intro _
          injection hget with h3
          subst h3
          simp only [hp]
          simp
          split_ifs with hlt
          · have h10 : (0 : ℚ) < 10 * pct row := by linarith
            have := mul_pos hpos1 h10
            positivity
          · positivity

/-- Witness for the amended C2 at the balanced two-row fixture, item 0
(row [1, 0], weight 1.1 > 0). -/
theorem getitem_weight_sign_witness :
    OnsetDataset.init XBal yBal = .ok dsBal ∧ dsBal.getitem 0 = some tBal ∧
      ((allPosRow yBal 0 = true → tBal.2.2 = 0) ∧
        (allPosRow yBal 0 = false → 0 < tBal.2.2)) := by
  have h1 : OnsetDataset.init XBal yBal = .ok dsBal := by
    simp [XBal, yBal, dsBal, OnsetDataset.init, compute_class_weight, reduceLabels]
  have h2 : dsBal.getitem 0 = some tBal := by
    simp [dsBal, XBal, yBal, tBal, OnsetDataset.getitem, pct, pct_pos, pct_neg,
      y_pos, y_neg, List.transpose]
    norm_num
  exact ⟨h1, h2, getitem_weight_sign XBal yBal dsBal 0 h1 tBal h2⟩

/-- C10: when the reduced label set of a split misses one of the two
classes, the balanced class-weight computation raises and OnsetDataset
construction fails (run.py lines 68-75 with sklearn
compute_class_weight raising for a requested class absent from y). -/
theorem single_class_split_fails (X : List (List (List ℚ))) (y : Labels)
    (h : 0 ∉ reduceLabels y ∨ 1 ∉ reduceLabels y) :
    OnsetDataset.init X y =
      .error "classes should have valid labels that are in y" := by
  have h2 : ¬ (0 ∈ reduceLabels y ∧ 1 ∈ reduceLabels y) := by tauto
  simp [OnsetDataset.init, compute_class_weight, h2]

/-- Witness for C10 on an all-positive split. -/
theorem single_class_split_fails_witness :
    (0 ∉ reduceLabels (.perTimestep [[1, 1]]) ∨
      1 ∉ reduceLabels (.perTimestep [[1, 1]])) ∧
    OnsetDataset.init [] (.perTimestep [[1, 1]]) =
      .error "classes should have valid labels that are in y" :=
  ⟨Or.inl (by decide),
   single_class_split_fails [] (.perTimestep [[1, 1]]) (Or.inl (by decide))⟩

/-- C4: a ResnetBlock with stride 2 or an active projection returns the
transformed branch with no residual addition, while a stride-1
non-projecting block (with matching channel counts, as the residual
add requires) adds the branch to the unmodified input and returns a
tensor of exactly the input shape [B, C, T] (run.py lines 176-194). -/
theorem resnet_skip_policy (b : ResnetBlock) (s : Shape3) :
    (∀ r added, b.forwardShape s = some (r, added) →
        (b.stride = 2 ∨ b.project = true) → added = false)
  ∧ (b.stride = 1 → b.project = false → s.C = b.c_in → b.c_out = b.c_in →
      1 ≤ s.T → b.forwardShape s = some (s, true)) := by
  constructor
  · intro r added hfs hsp
    rcases hbr : b.branchShape s with _ | x
    · rw [ResnetBlock.forwardShape, hbr] at hfs
      cases hfs
    · rw [ResnetBlock.forwardShape, hbr] at hfs
      simp [hsp] at hfs
      exact hfs.2
  · intro h1 h2 h3 h4 h5
    obtain ⟨B, C, T⟩ := s
    simp only at h3 h5
    subst h3
    have hT1 : T - 1 + 1 = T := by omega
    rw [ResnetBlock.forwardShape, ResnetBlock.branchShape]
    simp [batchNorm1dShape, conv1dShape, reluShape, h1, h2, h4, h5, hT1]

/-- Witness for C4: the stride-2 projecting block bDown halves T and
skips the residual; the stride-1 block bSkip preserves [2, 16, 8] and
adds the skip connection. -/
theorem resnet_skip_policy_witness :
    ResnetBlock.forwardShape bDown sIn = some (⟨2, 32, 4⟩, false) ∧
      (bDown.stride = 2 ∨ bDown.project = true) ∧
      bSkip.stride = 1 ∧ bSkip.project = false ∧ sIn.C = bSkip.c_in ∧
      bSkip.c_out = bSkip.c_in ∧ 1 ≤ sIn.T ∧
      ResnetBlock.forwardShape bSkip sIn = some (sIn, true) :=
  ⟨by decide, Or.inl rfl, rfl, rfl, rfl, rfl, by decide,
   (resnet_skip_policy bSkip sIn).2 rfl rfl rfl rfl (by decide)⟩

/-- C5 counterexample: the drop probability passed to the 16th (last)
residual block is 0.2 · 16 / 17 (run.py line 276 divides by
depth = 1 + len(blocks) = 17), not 0.2 · 16 / 16 as the formula of the
claim with total_blocks = len(blocks) = 16 states. -/
theorem drop_prob_cex :
    dropProb 15 ≠ STOCHASTIC_DEPTH * ((15 : ℚ) + 1) / (blocks.length : ℚ) := by
  have hd : depth = 17 := by decide
  have hb : blocks.length = 16 := by decide
  unfold dropProb STOCHASTIC_DEPTH
  rw [hd, hb]
  norm_num

/-- C5 amended: the drop probability passed to the k-th residual block
(k = idx + 1, 1-based) equals the base rate 0.2 times k divided by
(total number of residual blocks + 1). -/
theorem drop_prob_formula (idx : ℕ) (_h : idx < blocks.length) :
    dropProb idx = STOCHASTIC_DEPTH * ((idx : ℚ) + 1) / ((blocks.length : ℚ) + 1) := by
  have hd : (depth : ℚ) = (blocks.length : ℚ) + 1 := by
    unfold depth
    push_cast
    ring
  unfold dropProb
  rw [hd]

/-- Witness for the amended C5 at the first block. -/
theorem drop_prob_formula_witness :
    0 < blocks.length ∧
      dropProb 0 = STOCHASTIC_DEPTH * ((0 : ℚ) + 1) / ((blocks.length : ℚ) + 1) :=
  ⟨by decide, drop_prob_formula 0 (by decide)⟩

/-- C6: for kernel sizes 3, 5 and 7, every per-channel row of the
BlurPool1d kernel (the binomial row divided by its sum) sums to
exactly 1. -/
theorem blurpool_kernel_sums (channels k : ℕ) (h : k = 3 ∨ k = 5 ∨ k = 7) :
    (BlurPool1d.mkKernel channels k).map
        (fun kern => kern.all (fun row => row.sum == 1)) = .ok true := by
  have hstep : ∀ (e : Except String (List (List ℚ))) (bk : List ℚ),
      e = .ok (List.replicate channels bk) → bk.sum = 1 →
      e.map (fun kern => kern.all (fun row => row.sum == 1)) = .ok true := by
    intro e bk he hsum
    subst he
    simp only [Except.map]
    congr 1
    rw [List.all_eq_true]
    intro row hrow
    simp only [List.eq_of_mem_replicate hrow, beq_iff_eq]
    exact hsum
  rcases h with rfl | rfl | rfl
  · exact hstep _ _ rfl (by norm_num)
  · exact hstep _ _ rfl (by norm_num)
  · exact hstep _ _ rfl (by norm_num)

/-- Witness for C6 at 2 channels, kernel size 5. -/
theorem blurpool_kernel_sums_witness :
    ((5 : ℕ) = 3 ∨ (5 : ℕ) = 5 ∨ (5 : ℕ) = 7) ∧
      (BlurPool1d.mkKernel 2 5).map
        (fun kern => kern.all (fun row => row.sum == 1)) = .ok true :=
  ⟨Or.inr (Or.inl rfl), blurpool_kernel_sums 2 5 (Or.inr (Or.inl rfl))⟩

/-- C7: BlurPool1d construction fails with the unsupported-kernel-size
ValueError for every kernel size outside 3, 5, 7, and succeeds for 3,
5 and 7 (run.py lines 118-125). -/
theorem blurpool_kernel_size_check (channels k : ℕ) :
    (¬ (k = 3 ∨ k = 5 ∨ k = 7) →
        BlurPool1d.mkKernel channels k =
          .error "Supported kernel sizes are in \x7b3, 5, 7\x7d")
  ∧ ((k = 3 ∨ k = 5 ∨ k = 7) → (BlurPool1d.mkKernel channels k).isOk = true) := by
  constructor
  · intro h
    push_neg at h
    obtain ⟨h3, h5, h7⟩ := h
    simp [BlurPool1d.mkKernel, binomialRow, h3, h5, h7]
  · rintro (rfl | rfl | rfl) <;>
      simp [BlurPool1d.mkKernel, binomialRow, Except.isOk, Except.toBool]

/-- Witness for C7 at kernel sizes 4 (fails) and 3 (succeeds). -/
theorem blurpool_kernel_size_check_witness :
    (¬ ((4 : ℕ) = 3 ∨ (4 : ℕ) = 5 ∨ (4 : ℕ) = 7)) ∧
      BlurPool1d.mkKernel 1 4 =
        .error "Supported kernel sizes are in \x7b3, 5, 7\x7d" ∧
      ((3 : ℕ) = 3 ∨ (3 : ℕ) = 5 ∨ (3 : ℕ) = 7) ∧
      (BlurPool1d.mkKernel 1 3).isOk = true :=
  ⟨by decide, (blurpool_kernel_size_check 1 4).1 (by decide), Or.inl rfl,
   (blurpool_kernel_size_check 1 3).2 (Or.inl rfl)⟩

/-- C8: when the accumulated pass holds only one class, the AUC
computation inside the try block raises, the handler catches the error
and completes, no val_auc / test_auc metric is emitted for that epoch,
and the prediction and label accumulators are still reset to empty
(run.py lines 309-336 and 349-373). -/
theorem degenerate_metric_skipped (vout tout : List ℚ) (stV stT : EvalState)
    (hV : ¬ (0 ∈ stV._test_true ∧ 1 ∈ stV._test_true))
    (hT : ¬ (0 ∈ stT._test_true ∧ 1 ∈ stT._test_true)) :
    ("val_auc" ∉ (validation_epoch_end vout stV).1.map Prod.fst ∧
        (validation_epoch_end vout stV).2 = ⟨[], []⟩)
  ∧ ("test_auc" ∉ (test_epoch_end tout stT).1.map Prod.fst ∧
        (test_epoch_end tout stT).2 = ⟨[], []⟩) :=
  ⟨⟨by simp [validation_epoch_end, roc_auc_score, hV], rfl⟩,
   ⟨by simp [test_epoch_end, roc_auc_score, hT], rfl⟩⟩

/-- Witness for C8 with a single-class validation pass and an empty
test pass. -/
theorem degenerate_metric_skipped_witness :
    (¬ (0 ∈ stOne._test_true ∧ 1 ∈ stOne._test_true)) ∧
      (¬ (0 ∈ stNone._test_true ∧ 1 ∈ stNone._test_true)) ∧
      (("val_auc" ∉ (validation_epoch_end [1] stOne).1.map Prod.fst ∧
          (validation_epoch_end [1] stOne).2 = ⟨[], []⟩)
        ∧ ("test_auc" ∉ (test_epoch_end [] stNone).1.map Prod.fst ∧
          (test_epoch_end [] stNone).2 = ⟨[], []⟩)) :=
  ⟨by decide, by decide,
   degenerate_metric_skipped [1] [] stOne stNone (by decide) (by decide)⟩

end SudepDetection
